import Mathlib

/-!
Verification of the DeployBackup synchronization engine.

Shallow embedding of the core components, translated from the Python
sources:

* `modules/state_manager.py`   — the SQLite-backed state store is modelled
  as an association list `Store` from relative paths to rows; SQL upserts
  and deletes become list operations with identical lookup semantics.
* `modules/checksum_utils.py`  — `verify_download_integrity`.
* `modules/parallel_downloader.py` — `_verify_download`, `_download_file`
  (the post-verification branch), the worker requeue step, and the
  `DownloadOrganizer` prioritization strategies.
* `modules/incremental_scanner.py` — the scan-cache commit of `scan_full`
  and `_should_use_incremental`.
* `modules/tar_downloader.py`  — `_find_writable_dir` and the
  argument-batching of `_download_via_args`.
* `modules/core.py`            — `should_exclude` and `EXCLUDE_PATTERNS`.

Machine integers are modelled as `Nat`/`Int` (no overflow is relevant on
the sizes involved).  Timestamps are abstract integers.  The single
floating-point expression in the sources, `int(expected_size * 0.001)`,
is embedded as the exact integer division `expected_size / 1000`; the
IEEE-754 double computation in the source agrees with this value for
every file size below about 7·10^15 bytes.  Python early `return`
statements are embedded with `Option` staging or nested conditionals.
Human-readable result messages are dropped; only the decision data the
callers inspect (success flags, sizes, requeue entries) is kept.
-/

/-- One remote file entry as produced by the scanners: size in bytes and
the server-provided modify string (and an optional checksum, which the
state store's batch writer ignores). -/
structure FileInfo where
  size : Nat
  modify : String
  checksum : Option String := none
deriving Repr, DecidableEq

/-- One row of the `file_state` table created by
`StateManager._init_database`: `rel_path` is the association-list key,
the remaining columns are the payload.  `checksum` is nullable
(`checksum TEXT` with no NOT NULL), all other columns are present. -/
structure FileRow where
  size : Nat
  modify : String
  checksum : Option String
  last_sync : String
  status : String
deriving Repr, DecidableEq

/-- The `file_state` table: an association list keyed by `rel_path`
(UNIQUE in the schema; `lookupPath` returns the first match). -/
abbrev Store := List (String × FileRow)

/-- `SELECT ... WHERE rel_path = ?` on an association list. -/
def lookupPath {β : Type} : List (String × β) → String → Option β
  | [], _ => none
  | e :: rest, p => if e.1 = p then some e.2 else lookupPath rest p

/-- The row created by a fresh `INSERT` in `update_file_batch`: the
column list names no `checksum`, so it takes its NULL default. -/
def newRow (info : FileInfo) (ts : String) : FileRow :=
  { size := info.size, modify := info.modify, checksum := none,
    last_sync := ts, status := "synced" }

/-- The `ON CONFLICT(rel_path) DO UPDATE SET` clause of
`update_file_batch`: only `size`, `modify`, `last_sync` and `status`
are written; `checksum` keeps its stored value. -/
def updatedRow (old : FileRow) (info : FileInfo) (ts : String) : FileRow :=
  { old with size := info.size, modify := info.modify,
             last_sync := ts, status := "synced" }

/-- One `INSERT ... ON CONFLICT(rel_path) DO UPDATE` of
`StateManager.update_file_batch` on the association list. -/
def upsertRow (ts : String) (p : String) (info : FileInfo) : Store → Store
  | [] => [(p, newRow info ts)]
  | e :: rest =>
    if e.1 = p then (p, updatedRow e.2 info ts) :: rest
    else e :: upsertRow ts p info rest

/-- The `file_list[start_idx:end_idx]` slicing loop of
`update_file_batch` / `delete_files`: split a list into consecutive
chunks of at most `n` elements. -/
def chunksOf {α : Type} (n : Nat) : List α → List (List α)
  | [] => []
  | a :: as =>
    if _h : n = 0 then [a :: as]
    else ((a :: as).take n) :: chunksOf n ((a :: as).drop n)
termination_by l => l.length
decreasing_by
  simp only [List.length_drop, List.length_cons]
  omega

/-- `StateManager.update_file_batch`: upsert all entries, one transaction
per chunk of `batch_size` entries, in list order. -/
def update_file_batch (ts : String) (batch_size : Nat) (store : Store)
    (files : List (String × FileInfo)) : Store :=
  (chunksOf batch_size files).foldl
    (fun s batch => batch.foldl (fun s2 pf => upsertRow ts pf.1 pf.2 s2) s) store

/-- `StateManager.delete_files`: `DELETE FROM file_state WHERE rel_path
IN (batch)`, one statement per chunk of `batch_size` paths. -/
def delete_files (batch_size : Nat) (store : Store)
    (rel_paths : List String) : Store :=
  (chunksOf batch_size rel_paths).foldl
    (fun s batch => s.filter (fun e => decide (e.1 ∉ batch))) store

/-- The spec's download predicate: a remote entry needs downloading iff
its path is absent from the store, or the stored size differs, or the
stored modify string differs. -/
def needs_download (store : Store) (p : String) (info : FileInfo) : Bool :=
  match lookupPath store p with
  | none => true
  | some row => decide (row.size ≠ info.size ∨ row.modify ≠ info.modify)

/-- Modelled from the spec: `StateManager.find_files_to_download` is
invoked by `backup_optimized` (PHASE 2) but its definition is not part of
the sources; the spec defines `diff(remote_index)` as yielding
`(to_download: [(path,size)], to_delete: {paths}, total_bytes)`, where a
path requires download iff absent from the store OR size differs OR
modify string differs, and the caller unpacks the triple as
`files_to_download, total_bytes, deleted_files`. -/
def find_files_to_download (store : Store) (remote : List (String × FileInfo)) :
    List (String × Nat) × Nat × List String :=
  let toDownload := (remote.filter (fun pf => needs_download store pf.1 pf.2)).map
      (fun pf => (pf.1, pf.2.size))
  let totalBytes := (toDownload.map (fun x => x.2)).sum
  let toDelete := (store.map (fun e => e.1)).filter
      (fun p => (lookupPath remote p).isNone)
  (toDownload, totalBytes, toDelete)

/-! ## Integrity verification (`checksum_utils.py`, `parallel_downloader.py`) -/

/-- Python `str.lower()`, character-wise (hash digests are ASCII). -/
def pyLower (s : String) : String := String.mk (s.data.map Char.toLower)

/-- The size tolerance `max(int(expected_size * 0.001), 10)` shared by
`verify_download_integrity` and `ParallelDownloader._verify_download`
(0.1 % of the expected size, at least 10 bytes). -/
def tolerance_for (expected : Nat) : Nat := max (expected / 1000) 10

/-- `abs(actual - expected) <= tolerance`. -/
def sizeWithin (actual expected : Nat) : Bool :=
  decide (|(actual : Int) - (expected : Int)| ≤ (tolerance_for expected : Int))

/-- The size-comparison fallback at the end of
`verify_download_integrity`: only runs when `expected_size` is truthy
(nonzero); with no expected size the function reports success. -/
def vdi_size_check (local_size expected_size : Nat) : Bool :=
  if expected_size ≠ 0 then sizeWithin local_size expected_size
  else true

/-- `checksum_utils.verify_download_integrity`.  Early returns are staged
through `Option Bool` (`none` = fall through to the next option).  Hash
computations are abstracted as inputs: `expected_hash` the caller-supplied
digest, `local_hash` the digest of the local file (`none` when
`calculate_file_hash` fails), `remote_hash` the digest computed on the
server (`none` when `ssh` is absent the branch is skipped entirely). -/
def verify_download_integrity (local_exists : Bool) (local_size : Nat)
    (expected_hash : Option String) (local_hash : Option String)
    (ssh_available : Bool) (remote_hash : Option String)
    (expected_size : Nat) : Bool :=
  if !local_exists then false
  else
    let opt1 : Option Bool :=
      match expected_hash, local_hash with
      | some eh, some lh => some (pyLower lh = pyLower eh)
      | some _, none => none
      | none, _ => none
    match opt1 with
    | some b => b
    | none =>
      let opt2 : Option Bool :=
        if ssh_available then
          match remote_hash, local_hash with
          | some rh, some lh => some (pyLower lh = pyLower rh)
          | some _, none => none
          | none, _ => none
        else none
      match opt2 with
      | some b => b
      | none => vdi_size_check local_size expected_size

/-! ## `ParallelDownloader._verify_download` and `_download_file` -/

/-- Result of `get_remote_file_info` during the smart rescan: remote
size, mtime, optional md5 digest, and whether the path is a symlink.
(When every probe inside `get_remote_file_info` fails the function still
returns a dict with `size = 0`; a raised exception around the call is
modelled by passing `none` for the whole rescan result.) -/
structure RemoteFileInfo where
  size : Nat
  mtime : Nat
  hash : Option String
  is_symlink : Bool
deriving Repr, DecidableEq

/-- The `(success, message, new_size)` triple returned by
`_verify_download`, without the message. -/
structure VerifyOutcome where
  ok : Bool
  newSize : Option Nat
deriving Repr, DecidableEq

/-- The size-verification half of `ParallelDownloader._verify_download`
(source lines 312-352): tolerance check, then the smart rescan when a
transport is available.  `local_hash` abstracts
`calculate_file_hash(local_path, ...)`. -/
def verify_download_size (ssh_available sftp_available : Bool)
    (local_hash : Option String) (task_size actual_size : Nat)
    (rescan : Option RemoteFileInfo) : VerifyOutcome :=
  if task_size ≠ 0 then
    if sizeWithin actual_size task_size then { ok := true, newSize := some actual_size }
    else if ssh_available || sftp_available then
      match rescan with
      | some info =>
        if info.is_symlink then { ok := true, newSize := none }
        else if info.size ≠ task_size then { ok := true, newSize := some info.size }
        else
          match info.hash, local_hash with
          | some rh, some lh =>
            if pyLower lh = pyLower rh then { ok := true, newSize := some info.size }
            else { ok := false, newSize := none }
          | _, _ => { ok := false, newSize := none }
      | none => { ok := false, newSize := none }
    else { ok := false, newSize := none }
  else { ok := true, newSize := none }

/-- `ParallelDownloader._verify_download` (source lines 277-352): the
remote-hash option when `use_hash_verification` is set and SSH is
available (the default `hash_algorithm` `md5` is always truthy), falling
back to the size verification when the remote hash cannot be computed. -/
def verify_download (use_hash_verification ssh_available sftp_available : Bool)
    (remote_hash local_hash : Option String)
    (task_size actual_size : Nat)
    (rescan : Option RemoteFileInfo) : VerifyOutcome :=
  if use_hash_verification && ssh_available then
    match remote_hash with
    | some rh =>
      match local_hash with
      | some lh =>
        if pyLower lh = pyLower rh then { ok := true, newSize := none }
        else { ok := false, newSize := none }
      | none => { ok := false, newSize := none }
    | none =>
      verify_download_size ssh_available sftp_available local_hash task_size actual_size rescan
  else
    verify_download_size ssh_available sftp_available local_hash task_size actual_size rescan

/-- `actual_size = new_size if new_size else task.size` in
`_download_file`: Python truthiness treats both `None` and `0` as
falsy, so a corrected size of `0` is replaced by the task size. -/
def recorded_size (task_size : Nat) (newSize : Option Nat) : Nat :=
  match newSize with
  | some n => if n ≠ 0 then n else task_size
  | none => task_size

/-- A download task (`DownloadTask` dataclass). -/
structure DTask where
  rel_path : String
  remote_path : String
  local_path : String
  size : Nat
  priority : Int := 0
  retry_count : Nat := 0
deriving Repr, DecidableEq

/-- A download result (`DownloadResult` dataclass, without the wall-clock
`duration`). -/
structure DResult where
  rel_path : String
  success : Bool
  size : Nat
  error_message : Option String := none
  retry_count : Nat := 0
deriving Repr, DecidableEq

/-- The post-verification branch of `_download_file` (source lines
417-442): on verification failure, try the smart rescan once (only on
the first attempt, `task.retry_count == 0`); if it produces no result,
remove the partial local file (the returned Bool) and emit a failure
result; on success record `recorded_size`. -/
def download_file_after_verify (task : DTask) (vr : VerifyOutcome)
    (smart : Option DResult) : DResult × Bool :=
  if vr.ok = false then
    match (if task.retry_count = 0 then smart else none) with
    | some r => (r, false)
    | none =>
      ({ rel_path := task.rel_path, success := false, size := 0,
         error_message := some "verification failed",
         retry_count := task.retry_count }, true)
  else
    ({ rel_path := task.rel_path, success := true,
       size := recorded_size task.size vr.newSize,
       error_message := none, retry_count := task.retry_count }, false)

/-- The requeue step of `ParallelDownloader._worker` (source lines
221-223), applied after the result has been pushed to the result queue:
on failure with `retry_count < max_retries`, increment the task's
`retry_count` and put it back at `priority + 100`. -/
def worker_requeue (max_retries : Nat) (priority : Int) (task : DTask)
    (result : DResult) : Option (Int × DTask) :=
  if result.success = false ∧ task.retry_count < max_retries then
    some (priority + 100, { task with retry_count := task.retry_count + 1 })
  else none

/-! ## Scan cache commit (`incremental_scanner.py`) -/

/-- The `ScanCache` dataclass (without the per-directory mtime map,
which no strategy reads); timestamps are abstract integers,
`datetime.min` is any value in the past. -/
structure ScanCacheState where
  files : List (String × FileInfo)
  last_full_scan : Int
  scan_strategy : String
deriving Repr, DecidableEq

/-- The cache commit at the end of `IncrementalScanner.scan_full`
(source lines 339-353): always replace the cached files; advance
`last_full_scan` and record strategy `full` only when the scan had no
errors, otherwise keep the old timestamp and record `partial`. -/
def scan_full_cache_update (cache : ScanCacheState)
    (files : List (String × FileInfo)) (scan_errors : Nat) (now : Int) :
    ScanCacheState :=
  if scan_errors = 0 then
    { files := files, last_full_scan := now, scan_strategy := "full" }
  else
    { files := files, last_full_scan := cache.last_full_scan,
      scan_strategy := "partial" }

/-- `IncrementalScanner._should_use_incremental` (source lines 144-150):
incremental only when the last full scan is fresher than the threshold
and the cache is nonempty. -/
def should_use_incremental (cache : ScanCacheState) (now threshold : Int) : Bool :=
  decide (now - cache.last_full_scan < threshold) && decide (0 < cache.files.length)

/-! ## Exclusion filter (`core.py`) -/

/-- `SynergyCore.EXCLUDE_PATTERNS` verbatim. -/
def EXCLUDE_PATTERNS : List String :=
  ["*.log", "*.tmp", ".git/", ".svn/",
   "node_modules/", "__pycache__/", "*.pyc",
   "cache/", "tmp/", "temp/", ".DS_Store",
   "Thumbs.db", ".idea/", ".vscode/",
   ".sessions/", "sessions/", "sess_"]

/-- Python `str.rstrip('/')`: remove every trailing slash. -/
def rstripSlashes (s : String) : String :=
  String.mk ((s.data.reverse.dropWhile (fun c => c = Char.ofNat 47)).reverse)

/-- Python `str.endswith`. -/
def pyEndsWith (s suffix : String) : Bool :=
  suffix.data.reverse.isPrefixOf s.data.reverse

/-- Python `str.startswith`. -/
def pyStartsWith (s pre : String) : Bool :=
  pre.data.isPrefixOf s.data

/-- Python `str.split(sep)` for a one-character separator: every
occurrence splits, empty segments are kept, the empty string yields
one empty segment. -/
def splitOnChar (sep : Char) : List Char → List String
  | [] => [""]
  | c :: rest =>
    let tail := splitOnChar sep rest
    if c = sep then "" :: tail
    else
      match tail with
      | [] => [String.mk [c]]
      | t :: ts => String.mk (c :: t.data) :: ts

/-- Python `needle in hay` on strings: contiguous-substring test (the
empty needle always matches). -/
def containsSub (needle : List Char) : List Char → Bool
  | [] => needle.isEmpty
  | c :: t => needle.isPrefixOf (c :: t) || containsSub needle t

/-- The per-pattern test in the body of `SynergyCore.should_exclude`
(source lines 174-185): directory patterns match a path component,
`*.`-patterns match by suffix (`pattern[1:]` keeps the dot), anything
else is a substring test. -/
def pattern_matches (pattern file_path : String) : Bool :=
  if pyEndsWith pattern "/" then
    (splitOnChar (Char.ofNat 47) file_path.data).contains (rstripSlashes pattern)
  else if pyStartsWith pattern "*." then
    pyEndsWith file_path (pattern.drop 1)
  else
    containsSub pattern.data file_path.data

/-- `SynergyCore.should_exclude`: first matching pattern returns true,
otherwise false. -/
def should_exclude (file_path : String) : Bool :=
  EXCLUDE_PATTERNS.any (fun pattern => pattern_matches pattern file_path)

/-- The claim's reading of the pattern semantics, stated independently:
"the pattern without its trailing slash" is `dropRight 1`, "the pattern
with the `*` removed" is `drop 1`, otherwise substring. -/
def exclude_pattern_claim (pattern file_path : String) : Bool :=
  if pyEndsWith pattern "/" then
    (splitOnChar (Char.ofNat 47) file_path.data).contains (pattern.dropRight 1)
  else if pyStartsWith pattern "*." then
    pyEndsWith file_path (pattern.drop 1)
  else
    containsSub pattern.data file_path.data

/-! ## Download prioritization (`DownloadOrganizer`, `add_tasks`) -/

/-- Insert into a sorted list, before the first element that is not
strictly smaller — so equal elements keep their relative order. -/
def pyInsert {α : Type} (le : α → α → Bool) (x : α) : List α → List α
  | [] => [x]
  | y :: ys => if le x y then x :: y :: ys else y :: pyInsert le x ys

/-- Python's `sorted` (a stable sort), as a structural insertion sort:
an element is placed before every equal element that occurred later in
the input. -/
def pySort {α : Type} (le : α → α → Bool) : List α → List α
  | [] => []
  | x :: xs => pyInsert le x (pySort le xs)

/-- `os.path.dirname` for the forward-slash relative paths used by the
organizer: everything before the final slash, with trailing slashes
stripped from the head unless the head is all slashes. -/
def dirname (p : String) : String :=
  let revBase := p.data.reverse.takeWhile (fun c => c ≠ Char.ofNat 47)
  let head := p.data.take (p.data.length - revBase.length)
  if head.isEmpty then ""
  else if head.all (fun c => c = Char.ofNat 47) then String.mk head
  else String.mk ((head.reverse.dropWhile (fun c => c = Char.ofNat 47)).reverse)

/-- `DownloadOrganizer.prioritize_by_directory`: group tasks by parent
directory (groups iterated in sorted directory order, tasks inside a
group in input order) and assign sequential priorities. -/
def prioritize_by_directory (tasks : List DTask) : List DTask :=
  let dirKeys := (tasks.map (fun t => dirname t.rel_path)).eraseDups
  let sortedDirs := pySort (fun a b => decide (a ≤ b)) dirKeys
  let grouped := sortedDirs.flatMap
      (fun d => tasks.filter (fun t => decide (dirname t.rel_path = d)))
  grouped.enum.map (fun it => { it.2 with priority := (it.1 : Int) })

/-- `DownloadOrganizer.prioritize_by_size`: set each task's priority to
its rank in the size-sorted order (ascending when `small_first`,
descending otherwise; Python's sort is stable) — but return the list in
its ORIGINAL order (the source returns `tasks`, not the sorted list).
Task identity of exact duplicates is not modelled: the rank of the first
structurally equal element is used. -/
def prioritize_by_size (tasks : List DTask) (small_first : Bool) : List DTask :=
  let sorted := pySort (fun a b =>
    if small_first then decide (a.size ≤ b.size) else decide (b.size ≤ a.size)) tasks
  tasks.map (fun t => { t with priority := (sorted.findIdx (fun x => x == t) : Int) })

/-- `DownloadOrganizer.prioritize_hybrid`: split at the 1 MiB threshold,
dir-group the small files, size-rank the large files, then overwrite
every priority sequentially over the concatenation (the two loops with
the running `priority` counter). -/
def prioritize_hybrid (tasks : List DTask) : List DTask :=
  let threshold : Nat := 1024 * 1024
  let small_files := tasks.filter (fun t => decide (t.size ≤ threshold))
  let large_files := tasks.filter (fun t => decide (threshold < t.size))
  let small_by_dir := prioritize_by_directory small_files
  let large_by_size := prioritize_by_size large_files false
  (small_by_dir ++ large_by_size).enum.map
    (fun it => { it.2 with priority := (it.1 : Int) })

/-- `ParallelDownloader.add_tasks`: stable-sort by the key
`(priority, size)` and enqueue `(idx, task)` pairs, so the queue
priority of a task is its index in that order. -/
def add_tasks (tasks : List DTask) : List (Nat × DTask) :=
  let tasks_sorted := pySort (fun a b =>
    decide (a.priority < b.priority ∨ (a.priority = b.priority ∧ a.size ≤ b.size))) tasks
  tasks_sorted.enum

/-! ## Tar argument batching (`tar_downloader.py`) -/

/-- `TarStreamDownloader._find_writable_dir`: probe `/tmp`, `/var/tmp`,
`.` in order and return the first directory the write test succeeds in.
The SFTP write probe is abstracted as `can_write`. -/
def find_writable_dir (can_write : String → Bool) : Option String :=
  ["/tmp", "/var/tmp", "."].find? can_write

/-- The single-quote character. -/
def squo : String := String.mk [Char.ofNat 39]

/-- `path.replace("'", "'\\''")`: shell-escape a path for single
quoting. -/
def shellEscape (p : String) : String :=
  String.mk (p.data.flatMap (fun c =>
    if c = Char.ofNat 39 then
      [Char.ofNat 39, Char.ofNat 92, Char.ofNat 39, Char.ofNat 39]
    else [c]))

/-- `len(escaped.encode('utf-8'))`: UTF-8 byte length of a string. -/
def utf8Len (s : String) : Nat := (s.data.map Char.utf8Size).sum

/-- The per-path cost `len(escaped.encode('utf-8')) + 3` used by
`_download_via_args` (two quotes plus a separating space). -/
def escapedSize (path : String) : Nat := utf8Len (shellEscape path) + 3

/-- The `ARG_MAX_SAFE = 100_000` constant of `_download_via_args`. -/
def ARG_MAX_SAFE : Nat := 100000

/-- One iteration of the batching loop in `_download_via_args`: flush
the current batch when it is nonempty and adding the next escaped path
would push the running size over `ARG_MAX_SAFE`.  The accumulator is
`(batches, current_batch, current_size)`; batches store the escaped
paths, as in the source. -/
def batchStep (acc : List (List String) × List String × Nat) (path : String) :
    List (List String) × List String × Nat :=
  let escaped := shellEscape path
  let path_size := utf8Len escaped + 3
  if acc.2.1 ≠ [] ∧ ARG_MAX_SAFE < acc.2.2 + path_size then
    (acc.1 ++ [acc.2.1], [escaped], path_size)
  else
    (acc.1, acc.2.1 ++ [escaped], acc.2.2 + path_size)

/-- The complete batch computation of `_download_via_args` (loop plus
the final `if current_batch: batches.append(current_batch)`). -/
def batchPaths (file_list : List String) : List (List String) :=
  let acc := file_list.foldl batchStep ([], [], 0)
  if acc.2.1 ≠ [] then acc.1 ++ [acc.2.1] else acc.1

/-- `' '.join(f"'{f}'" for f in batch)`: the quoted, space-joined
argument string of one batch. -/
def joinArgs : List String → String
  | [] => ""
  | [f] => squo ++ f ++ squo
  | f :: g :: rest => squo ++ f ++ squo ++ " " ++ joinArgs (g :: rest)

/-- The tar invocations issued by `_download_via_args`: exactly one
command per batch. -/
def tar_commands (compress : Bool) (remote_root : String)
    (file_list : List String) : List String :=
  (batchPaths file_list).map (fun batch =>
    "tar c" ++ (if compress then "z" else "") ++
    "hf - --ignore-failed-read --warning=no-file-changed -C " ++
    "\"" ++ remote_root ++ "\"" ++ " " ++ joinArgs batch)

/-- The tier dispatch of `TarStreamDownloader.download_files`: tier 1
(server-side file list) needs an SFTP client and a writable temp
directory; otherwise fall back to argument batches.  (Runtime failures
of a started tier-1 transfer are outside this model; the claim concerns
the write-probe outcome.) -/
inductive TarPlan where
  | viaFilelist (tmp_dir : String)
  | viaArgs (batches : List (List String))
deriving Repr, DecidableEq

/-- Which tier `download_files` selects, as a function of the abstract
write probe. -/
def download_files_plan (sftp_available : Bool) (can_write : String → Bool)
    (file_list : List String) : TarPlan :=
  match (if sftp_available then find_writable_dir can_write else none) with
  | some d => TarPlan.viaFilelist d
  | none => TarPlan.viaArgs (batchPaths file_list)

/-! ## Helper lemmas: chunking and association-list operations -/

theorem chunksOf_flatten {α : Type} (n : Nat) :
    ∀ (k : Nat) (l : List α), l.length ≤ k → (chunksOf n l).flatten = l := by
  intro k
  induction k with
  | zero =>
    intro l hl
    cases l with
    | nil => simp [chunksOf]
    | cons a as => simp at hl
  | succ k ih =>
    intro l hl
    cases l with
    | nil => simp [chunksOf]
    | cons a as =>
      rw [chunksOf]
      by_cases hn : n = 0
      · simp [hn]
      · simp only [hn, dite_false, List.flatten_cons]
        rw [ih]
        · exact List.take_append_drop n (a :: as)
        · simp only [List.length_drop, List.length_cons]
          simp only [List.length_cons] at hl
          omega

theorem foldl_chunks_eq {α β : Type} (g : β → α → β) (n : Nat) (l : List α) (b : β) :
    (chunksOf n l).foldl (fun s batch => batch.foldl g s) b = l.foldl g b := by
  have h : ∀ (L : List (List α)) (b : β),
      L.foldl (fun s batch => batch.foldl g s) b = L.flatten.foldl g b := by
    intro L
    induction L with
    | nil => intro b; simp
    | cons x xs ih => intro b; simp [List.foldl_append, ih]
  rw [h, chunksOf_flatten n l.length l le_rfl]

theorem update_file_batch_eq_foldl (ts : String) (bs : Nat) (store : Store)
    (files : List (String × FileInfo)) :
    update_file_batch ts bs store files =
      files.foldl (fun s pf => upsertRow ts pf.1 pf.2 s) store := by
  unfold update_file_batch
  exact foldl_chunks_eq _ bs files store

theorem lookupPath_upsertRow_ne (ts p : String) (info : FileInfo) :
    ∀ (store : Store) (q : String), q ≠ p →
      lookupPath (upsertRow ts p info store) q = lookupPath store q := by
  intro store q h
  induction store with
  | nil =>
    simp only [upsertRow, lookupPath]
    rw [if_neg (fun hh => h hh.symm)]
  | cons e rest ih =>
    by_cases he : e.1 = p
    · simp only [upsertRow, he, if_pos rfl, lookupPath]
      rw [if_neg (fun hh => h hh.symm), if_neg (fun hh => h hh.symm)]
    · simp only [upsertRow, if_neg he, lookupPath, ih]

theorem lookupPath_upsertRow_self (ts p : String) (info : FileInfo) :
    ∀ store : Store,
      lookupPath (upsertRow ts p info store) p =
        some ((lookupPath store p).elim (newRow info ts)
          (fun old => updatedRow old info ts)) := by
  intro store
  induction store with
  | nil => simp [upsertRow, lookupPath]
  | cons e rest ih =>
    by_cases he : e.1 = p
    · simp [upsertRow, he, lookupPath]
    · simp only [upsertRow, if_neg he, lookupPath, ih, if_neg he]

theorem lookupPath_foldl_upserts_isSome (ts : String) :
    ∀ (files : List (String × FileInfo)) (store : Store) (p : String),
      (lookupPath store p).isSome →
      (lookupPath (files.foldl (fun s pf => upsertRow ts pf.1 pf.2 s) store) p).isSome := by
  intro files
  induction files with
  | nil => intro store p h; simpa using h
  | cons pf fs ih =>
    intro store p h
    simp only [List.foldl_cons]
    apply ih
    by_cases hp : p = pf.1
    · rw [hp, lookupPath_upsertRow_self]; rfl
    · rw [lookupPath_upsertRow_ne ts pf.1 pf.2 store p hp]; exact h

theorem checksum_foldl_upserts (ts : String) :
    ∀ (files : List (String × FileInfo)) (store : Store) (p : String) (row : FileRow),
      lookupPath (files.foldl (fun s pf => upsertRow ts pf.1 pf.2 s) store) p = some row →
      row.checksum = (lookupPath store p).bind (fun r => r.checksum) := by
  intro files
  induction files with
  | nil =>
    intro store p row h
    simp only [List.foldl_nil] at h
    rw [h]; rfl
  | cons pf fs ih =>
    intro files_store p row h
    simp only [List.foldl_cons] at h
    have step := ih (upsertRow ts pf.1 pf.2 files_store) p row h
    by_cases hp : p = pf.1
    · rw [hp, lookupPath_upsertRow_self] at step
      cases hlk : lookupPath files_store pf.1 with
      | none =>
        rw [hp, hlk]
        rw [hlk] at step
        simpa [newRow] using step
      | some old =>
        rw [hp, hlk]
        rw [hlk] at step
        simpa [updatedRow] using step
    · rwa [lookupPath_upsertRow_ne ts pf.1 pf.2 files_store p hp] at step

theorem lookupPath_filter_not_mem (batch : List String) (p : String) (h : p ∉ batch) :
    ∀ s : Store, lookupPath (s.filter (fun e => decide (e.1 ∉ batch))) p = lookupPath s p := by
  intro s
  induction s with
  | nil => simp [lookupPath]
  | cons e rest ih =>
    by_cases hm : e.1 ∈ batch
    · have hne : ¬ e.1 = p := fun hh => h (hh ▸ hm)
      simp only [List.filter_cons, decide_eq_true_eq]
      rw [if_neg (by simpa using hm)]
      simp only [lookupPath, if_neg hne, ih]
    · simp only [List.filter_cons, decide_eq_true_eq]
      rw [if_pos (by simpa using hm)]
      simp only [lookupPath, ih]

theorem mem_chunksOf_mem {α : Type} (n : Nat) (l : List α) (b : List α)
    (hb : b ∈ chunksOf n l) : ∀ x ∈ b, x ∈ l := by
  intro x hx
  have hm : x ∈ (chunksOf n l).flatten := List.mem_flatten.mpr ⟨b, hb, hx⟩
  rwa [chunksOf_flatten n l.length l le_rfl] at hm

theorem lookupPath_delete_files (bs : Nat) (paths : List String) (p : String)
    (h : p ∉ paths) (store : Store) :
    lookupPath (delete_files bs store paths) p = lookupPath store p := by
  unfold delete_files
  have hsub : ∀ b ∈ chunksOf bs paths, p ∉ b :=
    fun b hb hpb => h (mem_chunksOf_mem bs paths b hb p hpb)
  revert store
  generalize chunksOf bs paths = L at hsub
  induction L with
  | nil => intro store; rfl
  | cons b bs2 ih =>
    intro store
    simp only [List.foldl_cons]
    rw [ih (fun c hc => hsub c (List.mem_cons_of_mem b hc)),
        lookupPath_filter_not_mem b p (hsub b (List.mem_cons_self b bs2)) store]

theorem mem_filter_map_fst (f : String × FileInfo → Bool) :
    ∀ (remote : List (String × FileInfo)) (p : String) (fi : FileInfo),
      (remote.map Prod.fst).Nodup → lookupPath remote p = some fi →
      (p ∈ (remote.filter f).map Prod.fst ↔ f (p, fi) = true) := by
  intro remote
  induction remote with
  | nil => intro p fi _ hp; simp [lookupPath] at hp
  | cons e rest ih =>
    intro p fi hnd hp
    simp only [List.map_cons, List.nodup_cons] at hnd
    obtain ⟨hq, hnd2⟩ := hnd
    rw [List.filter_cons]
    by_cases he : e.1 = p
    · have hfi : e.2 = fi := by
        simp only [lookupPath, if_pos he] at hp
        exact Option.some.inj hp
      have hepfi : e = (p, fi) := Prod.ext he hfi
      have hnotin : p ∉ (rest.filter f).map Prod.fst := by
        intro hmem
        exact hq (he ▸ List.map_subset Prod.fst
          (fun x hx => (List.mem_filter.mp hx).1) hmem)
      by_cases hf : f e = true
      · rw [if_pos hf, List.map_cons]
        simp only [List.mem_cons]
        constructor
        · intro _; rwa [← hepfi]
        · intro _; exact Or.inl he.symm
      · rw [if_neg hf]
        constructor
        · intro hmem; exact absurd hmem hnotin
        · intro hpf; exact absurd (hepfi ▸ hpf) hf
    · have hp2 : lookupPath rest p = some fi := by
        simpa only [lookupPath, if_neg he] using hp
      by_cases hf : f e = true
      · rw [if_pos hf, List.map_cons]
        simp only [List.mem_cons]
        rw [ih p fi hnd2 hp2]
        constructor
        · rintro (h1 | h2)
          · exact absurd h1.symm he
          · exact h2
        · intro hpf; exact Or.inr hpf
      · rw [if_neg hf]
        exact ih p fi hnd2 hp2

/-- C1: for every prior store and remote index (with unique remote
paths), the to-download component of `find_files_to_download` contains a
path iff it is absent from the store, or its stored size differs from
the remote size, or its stored modify string differs from the remote
modify string. -/
theorem find_files_to_download_membership (store : Store)
    (remote : List (String × FileInfo)) (p : String) (fi : FileInfo)
    (hnd : (remote.map Prod.fst).Nodup) (hp : lookupPath remote p = some fi) :
    p ∈ ((find_files_to_download store remote).1.map Prod.fst) ↔
      (lookupPath store p = none ∨
       ∃ row, lookupPath store p = some row ∧
         (row.size ≠ fi.size ∨ row.modify ≠ fi.modify)) := by
  have h1 : ((find_files_to_download store remote).1.map Prod.fst) =
      ((remote.filter (fun pf => needs_download store pf.1 pf.2)).map Prod.fst) := by
    show (((remote.filter _).map (fun pf => (pf.1, pf.2.size))).map Prod.fst) = _
    rw [List.map_map]
    rfl
  rw [h1, mem_filter_map_fst (fun pf => needs_download store pf.1 pf.2) remote p fi hnd hp]
  show needs_download store p fi = true ↔ _
  unfold needs_download
  cases hlk : lookupPath store p with
  | none => simp
  | some row => simp [decide_eq_true_eq]

theorem find_files_to_download_membership_witness :
    "a/x" ∈ ((find_files_to_download
        [("a/x", { size := 3, modify := "m", checksum := none,
                   last_sync := "t", status := "synced" })]
        [("a/x", ({ size := 4, modify := "m" } : FileInfo)),
         ("b/y", ({ size := 1, modify := "n" } : FileInfo))]).1.map Prod.fst) := by
  rw [find_files_to_download_membership
      [("a/x", { size := 3, modify := "m", checksum := none,
                 last_sync := "t", status := "synced" })]
      [("a/x", ({ size := 4, modify := "m" } : FileInfo)),
       ("b/y", ({ size := 1, modify := "n" } : FileInfo))]
      "a/x" ({ size := 4, modify := "m" } : FileInfo) (by decide) (by decide)]
  right
  exact ⟨_, rfl, Or.inl (by decide)⟩

/-- C5: a batch upsert never removes a path from the store (every path
present before `update_file_batch` is present afterwards), and
`delete_files` removes only the paths it is given — the commit is an
upsert, not a clear-then-insert. -/
theorem update_file_batch_preserves_paths (ts : String) (bs : Nat)
    (store : Store) (files : List (String × FileInfo))
    (paths : List String) (p : String)
    (hpresent : (lookupPath store p).isSome) (hnot : p ∉ paths) :
    (lookupPath (update_file_batch ts bs store files) p).isSome ∧
    lookupPath (delete_files bs store paths) p = lookupPath store p := by
  constructor
  · rw [update_file_batch_eq_foldl]
    exact lookupPath_foldl_upserts_isSome ts files store p hpresent
  · exact lookupPath_delete_files bs paths p hnot store

theorem update_file_batch_preserves_paths_witness :
    (lookupPath (update_file_batch "t" 2
        [("a", { size := 1, modify := "m", checksum := none,
                 last_sync := "s", status := "synced" })]
        [("b", ({ size := 2, modify := "n" } : FileInfo)),
         ("c", ({ size := 3, modify := "o" } : FileInfo))]) "a").isSome ∧
    lookupPath (delete_files 2
        [("a", { size := 1, modify := "m", checksum := none,
                 last_sync := "s", status := "synced" })] ["b", "c"]) "a" =
      lookupPath
        [("a", { size := 1, modify := "m", checksum := none,
                 last_sync := "s", status := "synced" })] "a" :=
  update_file_batch_preserves_paths "t" 2
    [("a", { size := 1, modify := "m", checksum := none,
             last_sync := "s", status := "synced" })]
    [("b", ({ size := 2, modify := "n" } : FileInfo)),
     ("c", ({ size := 3, modify := "o" } : FileInfo))]
    ["b", "c"] "a" (by decide) (by decide)

/-- C10: the batch upsert never writes the checksum column — whatever
checksums the input entries carry, a row found after `update_file_batch`
has the checksum the store held for that path before the call, and NULL
(`none`) if the path was newly inserted. -/
theorem update_file_batch_checksum_frame (ts : String) (bs : Nat)
    (store : Store) (files : List (String × FileInfo)) (p : String)
    (row : FileRow)
    (h : lookupPath (update_file_batch ts bs store files) p = some row) :
    row.checksum = (lookupPath store p).bind (fun r => r.checksum) := by
  rw [update_file_batch_eq_foldl] at h
  exact checksum_foldl_upserts ts files store p row h

theorem update_file_batch_checksum_frame_witness :
    (FileRow.mk 2 "n" none "t" "synced").checksum =
      (lookupPath ([] : Store) "b").bind (fun r => r.checksum) ∧
    (FileRow.mk 4 "q" (some "c0") "t" "synced").checksum =
      (lookupPath [("a", FileRow.mk 1 "m" (some "c0") "s" "old")] "a").bind
        (fun r => r.checksum) :=
  ⟨update_file_batch_checksum_frame "t" 5 []
     [("b", FileInfo.mk 2 "n" (some "ignored"))] "b"
     (FileRow.mk 2 "n" none "t" "synced")
     (by rw [update_file_batch_eq_foldl]; decide),
   update_file_batch_checksum_frame "t" 5
     [("a", FileRow.mk 1 "m" (some "c0") "s" "old")]
     [("a", FileInfo.mk 4 "q" (some "other"))] "a"
     (FileRow.mk 4 "q" (some "c0") "t" "synced")
     (by rw [update_file_batch_eq_foldl]; decide)⟩

/-- C2 counterexample: size mismatch beyond tolerance (expected 1000,
actual 2000), transport available, smart rescan finds the remote size
UNCHANGED (1000) — the size-tolerance rule says fail, but because the
rescan carries a remote hash equal to the local hash the verifier
returns success, so the tolerance rule does not decide the outcome. -/
theorem smart_rescan_hash_overrides_tolerance :
    (verify_download false true true none (some "aa") 1000 2000
        (some { size := 1000, mtime := 0, hash := some "aa", is_symlink := false })).ok
      = true
    ∧ sizeWithin 2000 1000 = false := by
  constructor
  · decide
  · decide

/-- C2 (amended): on a size mismatch beyond tolerance with a transport
available, the verifier re-stats the remote file (not a symlink): if the
fresh remote size differs from the expected size it returns success with
that size as the corrected size, and the caller records it as the result
size whenever it is nonzero; if the remote size is unchanged, the
verifier additionally succeeds when a remote hash is available and
matches the local hash, and otherwise fails as the (already violated)
size-tolerance rule dictates. -/
theorem smart_rescan_behaviour (ssh_available sftp_available : Bool)
    (local_hash : Option String) (task : DTask) (actual_size : Nat)
    (info : RemoteFileInfo) (smart : Option DResult)
    (htrans : ssh_available = true ∨ sftp_available = true)
    (hpos : 0 < task.size)
    (hmis : sizeWithin actual_size task.size = false)
    (hsym : info.is_symlink = false) :
    (info.size ≠ task.size →
      verify_download false ssh_available sftp_available none local_hash
          task.size actual_size (some info) =
        { ok := true, newSize := some info.size } ∧
      (info.size ≠ 0 →
        (download_file_after_verify task
            (verify_download false ssh_available sftp_available none local_hash
              task.size actual_size (some info)) smart).1.success = true ∧
        (download_file_after_verify task
            (verify_download false ssh_available sftp_available none local_hash
              task.size actual_size (some info)) smart).1.size = info.size)) ∧
    (info.size = task.size →
      ((verify_download false ssh_available sftp_available none local_hash
          task.size actual_size (some info)).ok = true ↔
        ∃ rh lh, info.hash = some rh ∧ local_hash = some lh ∧
          pyLower lh = pyLower rh)) := by
  have htr : (ssh_available || sftp_available) = true := by
    rcases htrans with h | h <;> simp [h]
  have hpos2 : ¬ task.size = 0 := Nat.pos_iff_ne_zero.mp hpos
  have hvd : verify_download false ssh_available sftp_available none local_hash
      task.size actual_size (some info) =
      verify_download_size ssh_available sftp_available local_hash
        task.size actual_size (some info) := by
    unfold verify_download
    simp
  constructor
  · intro hne
    have hv : verify_download_size ssh_available sftp_available local_hash
        task.size actual_size (some info) =
        { ok := true, newSize := some info.size } := by
      unfold verify_download_size
      simp [hpos2, hmis, htr, hsym, hne]
    refine ⟨hvd.trans hv, fun hnz => ?_⟩
    rw [hvd, hv]
    unfold download_file_after_verify
    simp [recorded_size, hnz]
  · intro heq
    rw [hvd]
    unfold verify_download_size
    cases hh : info.hash with
    | none => simp [hpos2, hmis, htr, hsym, heq, hh]
    | some rh =>
      cases hl : local_hash with
      | none => simp [hpos2, hmis, htr, hsym, heq, hh]
      | some lh =>
        by_cases heqh : pyLower lh = pyLower rh
        · simp [hpos2, hmis, htr, hsym, heq, hh, heqh]
        · simp [hpos2, hmis, htr, hsym, heq, hh, heqh]

theorem smart_rescan_behaviour_witness :
    (verify_download false true true none none 1000 2000
        (some { size := 1200, mtime := 0, hash := none, is_symlink := false }) =
      { ok := true, newSize := some 1200 }) ∧
    (download_file_after_verify
        (DTask.mk "x" "/r/x" "l/x" 1000 0 0)
        (verify_download false true true none none 1000 2000
          (some { size := 1200, mtime := 0, hash := none, is_symlink := false }))
        none).1.size = 1200 := by
  have h := smart_rescan_behaviour true true none (DTask.mk "x" "/r/x" "l/x" 1000 0 0)
    2000 { size := 1200, mtime := 0, hash := none, is_symlink := false } none
    (Or.inl rfl) (by decide) (by decide) rfl
  exact ⟨(h.1 (by decide)).1, ((h.1 (by decide)).2 (by decide)).2⟩

/-- C3: when `verify_download_integrity` falls back to the size
comparison (local file exists, no expected hash, and no remote-hash
comparison is possible), it succeeds iff
`|actual - expected| <= max(expected / 1000, 10)` in exact integer
arithmetic, for every expected size greater than zero. -/
theorem size_fallback_iff (local_size : Nat) (local_hash : Option String)
    (ssh_available : Bool) (remote_hash : Option String) (expected_size : Nat)
    (hpos : 0 < expected_size)
    (hfall : ssh_available = false ∨ remote_hash = none ∨ local_hash = none) :
    verify_download_integrity true local_size none local_hash ssh_available
        remote_hash expected_size = true ↔
      |(local_size : Int) - (expected_size : Int)| ≤
        max ((expected_size : Int) / 1000) 10 := by
  have hsz : verify_download_integrity true local_size none local_hash ssh_available
      remote_hash expected_size = vdi_size_check local_size expected_size := by
    unfold verify_download_integrity
    rcases hfall with h | h | h
    · subst h; simp
    · subst h; cases local_hash <;> simp
    · subst h; cases remote_hash <;> cases ssh_available <;> simp
  rw [hsz]
  unfold vdi_size_check
  rw [if_pos (Nat.pos_iff_ne_zero.mp hpos)]
  unfold sizeWithin tolerance_for
  rw [decide_eq_true_eq]
  have hcast : ((max (expected_size / 1000) 10 : Nat) : Int) =
      max ((expected_size : Int) / 1000) 10 := by
    push_cast
    rfl
  rw [hcast]

theorem size_fallback_iff_witness :
    (0 < 1000 ∧ ((false = false ∨ (none : Option String) = none ∨
        (none : Option String) = none))) ∧
    (verify_download_integrity true 1005 none none false none 1000 = true ↔
      |(1005 : Int) - (1000 : Int)| ≤ max ((1000 : Int) / 1000) 10) :=
  ⟨⟨by decide, Or.inl rfl⟩,
   size_fallback_iff 1005 none false none 1000 (by decide) (Or.inl rfl)⟩

/-- C4: when a download fails verification and the failure is not a
change-in-flight (the smart rescan produced no result, or the task was
already a retry), the worker deletes the partial local file, emits a
failure result, and requeues the task at `priority + 100` with
`retry_count + 1` exactly when `retry_count < max_retries`; at
`retry_count >= max_retries` the task is never requeued. -/
theorem failed_verification_cleanup_and_requeue (max_retries : Nat)
    (priority : Int) (task : DTask) (vr : VerifyOutcome) (smart : Option DResult)
    (hfail : vr.ok = false)
    (hnocif : task.retry_count ≠ 0 ∨ smart = none) :
    (download_file_after_verify task vr smart).2 = true ∧
    (download_file_after_verify task vr smart).1.success = false ∧
    worker_requeue max_retries priority task
        (download_file_after_verify task vr smart).1 =
      (if task.retry_count < max_retries then
        some (priority + 100, { task with retry_count := task.retry_count + 1 })
      else none) := by
  have hbranch : (if task.retry_count = 0 then smart else none) = none := by
    rcases hnocif with h | h
    · rw [if_neg h]
    · subst h; rw [ite_self]
  unfold download_file_after_verify
  rw [hfail]
  simp only [if_pos rfl, hbranch]
  refine ⟨rfl, rfl, ?_⟩
  unfold worker_requeue
  by_cases hr : task.retry_count < max_retries
  · rw [if_pos ⟨rfl, hr⟩, if_pos hr]
  · rw [if_neg (fun hc => hr hc.2), if_neg hr]

theorem failed_verification_cleanup_and_requeue_witness :
    ((download_file_after_verify (DTask.mk "x" "/r/x" "l/x" 50 7 1)
        (VerifyOutcome.mk false none) none).2 = true ∧
     (download_file_after_verify (DTask.mk "x" "/r/x" "l/x" 50 7 1)
        (VerifyOutcome.mk false none) none).1.success = false ∧
     worker_requeue 3 7 (DTask.mk "x" "/r/x" "l/x" 50 7 1)
        (download_file_after_verify (DTask.mk "x" "/r/x" "l/x" 50 7 1)
          (VerifyOutcome.mk false none) none).1 =
       (if (1 : Nat) < 3 then
          some ((7 : Int) + 100, DTask.mk "x" "/r/x" "l/x" 50 7 2)
        else none)) ∧
    ((download_file_after_verify (DTask.mk "y" "/r/y" "l/y" 50 9 3)
        (VerifyOutcome.mk false none) none).2 = true ∧
     (download_file_after_verify (DTask.mk "y" "/r/y" "l/y" 50 9 3)
        (VerifyOutcome.mk false none) none).1.success = false ∧
     worker_requeue 3 9 (DTask.mk "y" "/r/y" "l/y" 50 9 3)
        (download_file_after_verify (DTask.mk "y" "/r/y" "l/y" 50 9 3)
          (VerifyOutcome.mk false none) none).1 =
       (if (3 : Nat) < 3 then
          some ((9 : Int) + 100, DTask.mk "y" "/r/y" "l/y" 50 9 4)
        else none)) :=
  ⟨failed_verification_cleanup_and_requeue 3 7 (DTask.mk "x" "/r/x" "l/x" 50 7 1)
     (VerifyOutcome.mk false none) none rfl (Or.inl (by decide)),
   failed_verification_cleanup_and_requeue 3 9 (DTask.mk "y" "/r/y" "l/y" 50 9 3)
     (VerifyOutcome.mk false none) none rfl (Or.inr rfl)⟩

/-- C6: after a full-recursive scan with at least one enumeration error,
the cache keeps its old `last_full_scan` timestamp and records strategy
`partial`, so the next run's incremental decision is computed from the
OLD timestamp (the erroring scan contributes nothing to it). -/
theorem scan_full_partial_no_timestamp_advance (cache : ScanCacheState)
    (files : List (String × FileInfo)) (scan_errors : Nat) (now now2 threshold : Int)
    (herr : 0 < scan_errors) :
    (scan_full_cache_update cache files scan_errors now).last_full_scan =
      cache.last_full_scan ∧
    (scan_full_cache_update cache files scan_errors now).scan_strategy = "partial" ∧
    should_use_incremental (scan_full_cache_update cache files scan_errors now)
        now2 threshold =
      (decide (now2 - cache.last_full_scan < threshold) &&
       decide (0 < files.length)) := by
  have hne : ¬ scan_errors = 0 := Nat.pos_iff_ne_zero.mp herr
  unfold scan_full_cache_update
  rw [if_neg hne]
  exact ⟨rfl, rfl, rfl⟩

theorem scan_full_partial_no_timestamp_advance_witness :
    (scan_full_cache_update (ScanCacheState.mk [] 42 "full")
        [("a", FileInfo.mk 1 "m" none)] 2 50).last_full_scan = 42 ∧
    (scan_full_cache_update (ScanCacheState.mk [] 42 "full")
        [("a", FileInfo.mk 1 "m" none)] 2 50).scan_strategy = "partial" ∧
    should_use_incremental (scan_full_cache_update (ScanCacheState.mk [] 42 "full")
        [("a", FileInfo.mk 1 "m" none)] 2 50) 60 25 =
      (decide ((60 : Int) - 42 < 25) && decide (0 < 1)) := by
  have h := scan_full_partial_no_timestamp_advance (ScanCacheState.mk [] 42 "full")
    [("a", FileInfo.mk 1 "m" none)] 2 50 60 25 (by decide)
  refine ⟨h.1, h.2.1, ?_⟩
  rw [h.2.2]
  rfl

theorem pattern_matches_eq_claim (pat p : String)
    (h : pyEndsWith pat "/" = true → rstripSlashes pat = pat.dropRight 1) :
    pattern_matches pat p = exclude_pattern_claim pat p := by
  unfold pattern_matches exclude_pattern_claim
  by_cases hc : pyEndsWith pat "/" = true
  · rw [if_pos hc, if_pos hc, h hc]
  · rw [if_neg hc, if_neg hc]

/-- C7: `should_exclude p` is true iff some recognized pattern matches
`p`, where a trailing-slash pattern matches iff the pattern without its
trailing slash is one of the slash-separated components of `p`, a
`*.`-pattern matches iff `p` ends with the pattern with the `*`
removed, and any other pattern matches iff it occurs as a substring of
`p`. -/
theorem should_exclude_iff (p : String) :
    should_exclude p = true ↔
      ∃ pat ∈ EXCLUDE_PATTERNS, exclude_pattern_claim pat p = true := by
  have hpats : ∀ pat ∈ EXCLUDE_PATTERNS,
      pyEndsWith pat "/" = true → rstripSlashes pat = pat.dropRight 1 := by decide
  rw [should_exclude, List.any_eq_true]
  constructor
  · rintro ⟨pat, hmem, hm⟩
    refine ⟨pat, hmem, ?_⟩
    rw [← pattern_matches_eq_claim pat p (hpats pat hmem)]
    exact hm
  · rintro ⟨pat, hmem, hm⟩
    refine ⟨pat, hmem, ?_⟩
    rw [pattern_matches_eq_claim pat p (hpats pat hmem)]
    exact hm

/-- C8: on the failing input of two large tasks given in increasing-size
order, `prioritize_hybrid` enqueues them in INPUT order — 2 MiB before
3 MiB — not largest first: `prioritize_by_size` returns the original
list (only the task priority fields hold the size ranks) and the hybrid
combiner then overwrites every priority sequentially over that original
order, discarding the ranks. -/
theorem prioritize_hybrid_large_not_largest_first :
    ((prioritize_hybrid
        [DTask.mk "x.bin" "/r/x.bin" "l/x.bin" 2097152 0 0,
         DTask.mk "y.bin" "/r/y.bin" "l/y.bin" 3145728 0 0]).map
      (fun t => (t.rel_path, t.size, t.priority)) =
        [("x.bin", 2097152, (0 : Int)), ("y.bin", 3145728, 1)]) ∧
    ((add_tasks (prioritize_hybrid
        [DTask.mk "x.bin" "/r/x.bin" "l/x.bin" 2097152 0 0,
         DTask.mk "y.bin" "/r/y.bin" "l/y.bin" 3145728 0 0])).map
      (fun it => (it.1, it.2.rel_path)) = [(0, "x.bin"), (1, "y.bin")]) ∧
    (2097152 : Nat) < 3145728 := by
  refine ⟨?_, ?_, ?_⟩
  · decide
  · decide
  · decide


/-! ## Tar batching lemmas -/

/-- The joined shell-escaped cost of a batch: `sum (len(e) + 3)`. -/
def batchBytes (b : List String) : Nat := (b.map (fun e => utf8Len e + 3)).sum

theorem utf8Len_append (a b : String) : utf8Len (a ++ b) = utf8Len a + utf8Len b := by
  unfold utf8Len
  rw [String.data_append, List.map_append, List.sum_append]

theorem utf8Len_joinArgs : ∀ b : List String, b ≠ [] →
    utf8Len (joinArgs b) + 1 = batchBytes b := by
  intro b
  induction b with
  | nil => intro h; exact absurd rfl h
  | cons f rest ih =>
    intro _
    have h1 : utf8Len squo = 1 := by decide
    have h2 : utf8Len " " = 1 := by decide
    cases rest with
    | nil =>
      show utf8Len (squo ++ f ++ squo) + 1 = _
      rw [utf8Len_append, utf8Len_append, h1]
      simp [batchBytes]
      omega
    | cons g rest2 =>
      show utf8Len (squo ++ f ++ squo ++ " " ++ joinArgs (g :: rest2)) + 1 = _
      rw [utf8Len_append, utf8Len_append, utf8Len_append, utf8Len_append, h1, h2]
      have h3 := ih (by simp)
      simp only [batchBytes, List.map_cons, List.sum_cons] at h3 ⊢
      omega

theorem foldl_batchStep_inv (fl : List String) :
    ∀ (B : List (List String)) (cur : List String),
      (fl.foldl batchStep (B, cur, batchBytes cur)).2.2 =
        batchBytes (fl.foldl batchStep (B, cur, batchBytes cur)).2.1 ∧
      (fl.foldl batchStep (B, cur, batchBytes cur)).1.flatten ++
          (fl.foldl batchStep (B, cur, batchBytes cur)).2.1 =
        B.flatten ++ cur ++ fl.map shellEscape ∧
      ((∀ b ∈ B, b ≠ []) →
        ∀ b ∈ (fl.foldl batchStep (B, cur, batchBytes cur)).1, b ≠ []) ∧
      ((∀ q ∈ fl, escapedSize q ≤ ARG_MAX_SAFE) →
       (∀ b ∈ B, batchBytes b ≤ ARG_MAX_SAFE) →
       batchBytes cur ≤ ARG_MAX_SAFE →
       (∀ b ∈ (fl.foldl batchStep (B, cur, batchBytes cur)).1,
          batchBytes b ≤ ARG_MAX_SAFE) ∧
       batchBytes (fl.foldl batchStep (B, cur, batchBytes cur)).2.1 ≤
         ARG_MAX_SAFE) := by
  induction fl with
  | nil =>
    intro B cur
    refine ⟨rfl, by simp, fun h => h, fun _ hB hcur => ⟨hB, hcur⟩⟩
  | cons p fl2 ih =>
    intro B cur
    simp only [List.foldl_cons]
    by_cases hcond : cur ≠ [] ∧ ARG_MAX_SAFE < batchBytes cur + (utf8Len (shellEscape p) + 3)
    · have hstep : batchStep (B, cur, batchBytes cur) p =
          (B ++ [cur], [shellEscape p], batchBytes [shellEscape p]) := by
        simp only [batchStep]
        rw [if_pos hcond]
        simp [batchBytes]
      rw [hstep]
      obtain ⟨i1, i2, i3, i4⟩ := ih (B ++ [cur]) [shellEscape p]
      refine ⟨i1, ?_, ?_, ?_⟩
      · rw [i2]
        simp [List.map_cons]
      · intro hB
        exact i3 (by
          intro b hb
          rcases List.mem_append.mp hb with h | h
          · exact hB b h
          · rcases List.mem_singleton.mp h with rfl
            exact hcond.1)
      · intro hfit hB hcur
        apply i4 (fun q hq => hfit q (List.mem_cons_of_mem p hq))
        · intro b hb
          rcases List.mem_append.mp hb with h | h
          · exact hB b h
          · rcases List.mem_singleton.mp h with rfl
            exact hcur
        · have := hfit p (List.mem_cons_self p fl2)
          unfold escapedSize at this
          simp [batchBytes]
          omega
    · have hstep : batchStep (B, cur, batchBytes cur) p =
          (B, cur ++ [shellEscape p], batchBytes (cur ++ [shellEscape p])) := by
        simp only [batchStep]
        rw [if_neg hcond]
        simp [batchBytes]
      rw [hstep]
      obtain ⟨i1, i2, i3, i4⟩ := ih B (cur ++ [shellEscape p])
      refine ⟨i1, ?_, i3, ?_⟩
      · rw [i2]
        simp [List.map_cons]
      · intro hfit hB hcur
        apply i4 (fun q hq => hfit q (List.mem_cons_of_mem p hq)) hB
        rcases Classical.em (cur = []) with hc | hc
        · subst hc
          have := hfit p (List.mem_cons_self p fl2)
          unfold escapedSize at this
          simp [batchBytes]
          omega
        · have hle : batchBytes cur + (utf8Len (shellEscape p) + 3) ≤ ARG_MAX_SAFE := by
            rcases not_and_or.mp hcond with h | h
            · exact absurd hc (by simpa using h)
            · omega
          simp only [batchBytes, List.map_append, List.sum_append] at *
          simpa using hle

theorem batchPaths_props (fl : List String) :
    (batchPaths fl).flatten = fl.map shellEscape ∧
    (∀ b ∈ batchPaths fl, b ≠ []) ∧
    ((∀ q ∈ fl, escapedSize q ≤ ARG_MAX_SAFE) →
      ∀ b ∈ batchPaths fl, batchBytes b ≤ ARG_MAX_SAFE) := by
  obtain ⟨i1, i2, i3, i4⟩ := foldl_batchStep_inv fl [] []
  have h0 : batchPaths fl =
      (if (fl.foldl batchStep ([], [], batchBytes [])).2.1 ≠ [] then
        (fl.foldl batchStep ([], [], batchBytes [])).1 ++
          [(fl.foldl batchStep ([], [], batchBytes [])).2.1]
      else (fl.foldl batchStep ([], [], batchBytes [])).1) := rfl
  rw [h0]
  by_cases hc : (fl.foldl batchStep ([], [], batchBytes [])).2.1 ≠ []
  · rw [if_pos hc]
    refine ⟨?_, ?_, ?_⟩
    · rw [List.flatten_append]
      simpa using i2
    · intro b hb
      rcases List.mem_append.mp hb with h | h
      · exact i3 (by simp) b h
      · rcases List.mem_singleton.mp h with rfl
        exact hc
    · intro hfit b hb
      obtain ⟨j1, j2⟩ := i4 hfit (by simp) (by simp [batchBytes])
      rcases List.mem_append.mp hb with h | h
      · exact j1 b h
      · rcases List.mem_singleton.mp h with rfl
        exact j2
  · rw [if_neg hc]
    push_neg at hc
    refine ⟨?_, ?_, ?_⟩
    · have := i2
      rw [hc] at this
      simpa using this
    · exact i3 (by simp)
    · intro hfit
      exact (i4 hfit (by simp) (by simp [batchBytes])).1

/-- C9 (amended): when the write probe finds no writable temp directory
on the server, `download_files` falls back to argument batches; the
batches concatenate, in order, to the shell-escaped input list, every
batch is nonempty, tar is invoked exactly once per batch, and — provided
every single escaped path fits within the ~100 KB limit — each batch's
joined shell-escaped argument string stays below `ARG_MAX_SAFE`. -/
theorem args_batches_properties (sftp_available compress : Bool)
    (can_write : String → Bool) (remote_root : String) (file_list : List String)
    (hnodir : find_writable_dir can_write = none)
    (hfit : ∀ q ∈ file_list, escapedSize q ≤ ARG_MAX_SAFE) :
    download_files_plan sftp_available can_write file_list =
      TarPlan.viaArgs (batchPaths file_list) ∧
    (batchPaths file_list).flatten = file_list.map shellEscape ∧
    (∀ b ∈ batchPaths file_list, b ≠ [] ∧
      utf8Len (joinArgs b) < ARG_MAX_SAFE) ∧
    (tar_commands compress remote_root file_list).length =
      (batchPaths file_list).length := by
  obtain ⟨p1, p2, p3⟩ := batchPaths_props file_list
  refine ⟨?_, p1, ?_, ?_⟩
  · unfold download_files_plan
    cases sftp_available <;> simp [hnodir]
  · intro b hb
    have hne := p2 b hb
    have hle := p3 hfit b hb
    have hj := utf8Len_joinArgs b hne
    have hposb : 3 ≤ batchBytes b := by
      cases b with
      | nil => exact absurd rfl hne
      | cons x xs =>
        simp only [batchBytes, List.map_cons, List.sum_cons]
        omega
    refine ⟨hne, ?_⟩
    omega
  · unfold tar_commands
    rw [List.length_map]

theorem args_batches_properties_witness :
    download_files_plan true (fun _ => false) ["a", "b"] =
      TarPlan.viaArgs (batchPaths ["a", "b"]) ∧
    (batchPaths ["a", "b"]).flatten = ["a", "b"].map shellEscape ∧
    (tar_commands true "/data" ["a", "b"]).length =
      (batchPaths ["a", "b"]).length := by
  have h := args_batches_properties true true (fun _ => false) "/data" ["a", "b"]
    (by decide) (by decide)
  exact ⟨h.1, h.2.1, h.2.2.2⟩

/-- A one-element file list yields one singleton batch holding the
escaped path, whatever its length. -/
theorem batchPaths_singleton (p : String) : batchPaths [p] = [[shellEscape p]] := by
  have hstep : batchStep ([], [], 0) p =
      ([], [shellEscape p], 0 + (utf8Len (shellEscape p) + 3)) := by
    unfold batchStep
    rw [if_neg (by simp)]
    rfl
  have h0 : batchPaths [p] =
      (if (batchStep ([], [], 0) p).2.1 ≠ [] then
        (batchStep ([], [], 0) p).1 ++ [(batchStep ([], [], 0) p).2.1]
      else (batchStep ([], [], 0) p).1) := rfl
  rw [h0, hstep]
  simp

/-- A single path of 100001 bytes: its one-element batch exceeds the
argv safety limit. -/
def c9_big_path : String := String.mk (List.replicate 100001 (Char.ofNat 97))

/-- C9 counterexample: on a file list holding one path of 100001 `a`
characters, `_download_via_args` produces a single singleton batch whose
joined shell-escaped argument string is 100003 bytes — NOT below the
~100 KB (`ARG_MAX_SAFE = 100000`) limit, contradicting the claim that
every batch stays below it. -/
theorem single_path_batch_exceeds_limit :
    batchPaths [c9_big_path] = [[c9_big_path]] ∧
    ARG_MAX_SAFE < utf8Len (joinArgs [c9_big_path]) := by
  have hgen : ∀ n, shellEscape (String.mk (List.replicate n (Char.ofNat 97))) =
      String.mk (List.replicate n (Char.ofNat 97)) := by
    intro n
    unfold shellEscape
    congr 1
    induction n with
    | zero => rfl
    | succ k ihk =>
      rw [List.replicate_succ, List.flatMap_cons]
      rw [if_neg (by decide)]
      show Char.ofNat 97 ::
        (String.mk (List.replicate k (Char.ofNat 97))).data.flatMap _ = _
      rw [ihk]
  have hesc : shellEscape c9_big_path = c9_big_path := hgen 100001
  have hlgen : ∀ n, utf8Len (String.mk (List.replicate n (Char.ofNat 97))) = n := by
    intro n
    unfold utf8Len
    show ((List.replicate n (Char.ofNat 97)).map Char.utf8Size).sum = n
    rw [List.map_replicate, List.sum_replicate]
    have h97 : (Char.ofNat 97).utf8Size = 1 := by decide
    rw [h97, smul_eq_mul, mul_one]
  have hlen : utf8Len c9_big_path = 100001 := hlgen 100001
  constructor
  · rw [batchPaths_singleton c9_big_path, hesc]
  · show ARG_MAX_SAFE < utf8Len (squo ++ c9_big_path ++ squo)
    rw [utf8Len_append, utf8Len_append, hlen]
    have hsq : utf8Len squo = 1 := by decide
    rw [hsq]
    norm_num [ARG_MAX_SAFE]
